import Mathlib

/-!
Verification development for the Savant analytics / rendering extensions.

Shallow embedding notes:
- Python floats are modelled as exact rationals.
- Python `int(x)` (truncation toward zero) is modelled by `pyTrunc`.
- Square roots appearing in Euclidean distances are handled by carrying the
  squared distance and using order-preserving equivalences
  (`sqrt d <= t  <->  0 <= t and d <= t^2` for `d >= 0`), so that every
  definition stays executable over rationals.
- External library calls (savant_rs PolygonalArea.crossed_by_segments,
  cv2.getPerspectiveTransform / cv2.perspectiveTransform) are modelled as
  abstract function parameters stored in the corresponding tracker state,
  matching the capability contract the code uses: the batched
  crossed-by-segments query classifies each segment independently, so it is
  modelled as a per-segment function.
-/

/-- Python `int(x)` conversion for a real value: truncation toward zero. -/
def pyTrunc (x : ℚ) : ℤ := if 0 ≤ x then ⌊x⌋ else ⌈x⌉

/-- Geometric point, samples/traffic_meter/utils.py works with float pairs. -/
abbrev GeoPoint := ℚ × ℚ

/-- Segment between two points (savant_rs Segment, determined by endpoints). -/
abbrev GeoSegment := GeoPoint × GeoPoint

/-- Squared Euclidean distance. The source's `calculate_distance` returns
`((x2-x1)**2 + (y2-y1)**2)**0.5`; we carry the square to stay in ℚ. -/
def distance_sq (c1 c2 : ℚ × ℚ) : ℚ := (c2.1 - c1.1) ^ 2 + (c2.2 - c1.2) ^ 2

/-- Comparison `calculate_distance c1 c2 <= thr`, encoded without square
roots: for the nonnegative radicand this holds iff `0 <= thr` and
`distance_sq c1 c2 <= thr ^ 2`. -/
def distance_le (c1 c2 : ℚ × ℚ) (thr : ℚ) : Bool :=
  decide (0 ≤ thr) && decide (distance_sq c1 c2 ≤ thr ^ 2)

/-- Inner loop of `is_inside_postgis` (samples/people_counting/utils.py lines
153-182 and samples/traffic_meter/utils.py lines 228-257): walks vertices
`polygon[1..]`, carrying the deltas `dx, dy` from the query point to the
previous vertex and the running signed intersection count. The source
returns the truthy `2` on the exactly-on-edge case and `intersections != 0`
otherwise; both are modelled as `Bool`. -/
def isInsidePostgisAux (point : ℚ × ℚ) (dx dy : ℚ) (verts : List (ℚ × ℚ))
    (inter : ℤ) : Bool :=
  match verts with
  | [] => decide (inter ≠ 0)
  | v :: rest =>
    let dx2 := point.1 - v.1
    let dy2 := point.2 - v.2
    let F := (dx - dx2) * dy - dx * (dy - dy2)
    if F = 0 ∧ dx * dx2 ≤ 0 ∧ dy * dy2 ≤ 0 then
      true
    else
      let inter' :=
        if (0 ≤ dy ∧ dy2 < 0) ∨ (0 ≤ dy2 ∧ dy < 0) then
          if 0 < F then inter + 1 else if F < 0 then inter - 1 else inter
        else inter
      isInsidePostgisAux point dx2 dy2 rest inter'

/-- Ray-casting point-in-polygon test `is_inside_postgis(polygon, point)`.
The source indexes `polygon[0]` unconditionally (raising on an empty
polygon); the empty case is modelled as `false` and is unused. -/
def is_inside_postgis (polygon : List (ℚ × ℚ)) (point : ℚ × ℚ) : Bool :=
  match polygon with
  | [] => false
  | v0 :: rest =>
    isInsidePostgisAux point (point.1 - v0.1) (point.2 - v0.2) rest 0

/-- Crossing direction enum of samples/{people_counting,traffic_meter}/utils.py. -/
inductive Direction where
  | entry : Direction
  | exit : Direction
deriving DecidableEq

/-- Classification kinds returned by the savant_rs geometry library for a
segment against a polygonal area. -/
inductive IntersectionKind where
  | Inside : IntersectionKind
  | Outside : IntersectionKind
  | Enter : IntersectionKind
  | Leave : IntersectionKind
deriving DecidableEq

/-- Result of the crossed-by-segments query for one segment: a kind plus the
ordered (edge index, edge label) pairs touched by the crossing. -/
structure CrossResult where
  kind : IntersectionKind
  edges : List (ℕ × Option String)
deriving DecidableEq

/-- TwoLinesCrossingTracker state (samples/traffic_meter/utils.py lines
31-86; samples/people_counting/utils.py is identical).
`crossed_by_segment` models the external savant_rs batched query
`area.crossed_by_segments`, which classifies each segment independently.
`track_last_points` models the `defaultdict` of two-point deques: a missing
key and a present-but-empty deque are observably equivalent in the source
(the only reads are the window length, appends, and deletion), so both are
represented by `[]`. -/
structure TwoLinesCrossingTracker where
  crossed_by_segment : GeoSegment → CrossResult
  prev_cross_edge_label : ℕ → Option (List (Option String))
  track_last_points : ℕ → List GeoPoint

/-- Source lines 46-47: `self._track_last_points[track_id].append(point)`,
where the deque has `maxlen=2` (the oldest point is dropped on overflow). -/
def TwoLinesCrossingTracker.add_track_point (st : TwoLinesCrossingTracker)
    (track_id : ℕ) (p : GeoPoint) : TwoLinesCrossingTracker :=
  { st with
    track_last_points := fun t =>
      if t = track_id then
        let w := st.track_last_points track_id ++ [p]
        w.drop (w.length - 2)
      else st.track_last_points t }

/-- Source lines 42-44: deletes the track's window from
`_track_last_points` if present; `_prev_cross_edge_label` is not touched. -/
def TwoLinesCrossingTracker.remove_track (st : TwoLinesCrossingTracker)
    (track_id : ℕ) : TwoLinesCrossingTracker :=
  { st with
    track_last_points := fun t =>
      if t = track_id then [] else st.track_last_points t }

/-- `Segment(*track_points)` for a two-point window; other window lengths
never reach this call (guarded by the length check in `check_tracks`). -/
def segOfWindow : List GeoPoint → GeoSegment
  | [p, q] => (p, q)
  | _ => ((0, 0), (0, 0))

/-- Label sequence of the leaving case (source lines 66-78): the exit's
edge labels, prepended with the previously remembered entry labels when the
track is in the pending map, then stripped of the None labels. -/
def leaveLabels (prev : ℕ → Option (List (Option String))) (tid : ℕ)
    (cr : CrossResult) : List String :=
  (match prev tid with
   | some pls => pls ++ cr.edges.map Prod.snd
   | none => cr.edges.map Prod.snd).filterMap id

/-- Result write of the leaving case (source lines 80-84): set the track's
position to entry or exit when the label sequence matches exactly, leave it
untouched otherwise. -/
def leaveWrite (ret : List (Option Direction)) (idx : ℕ)
    (labels : List String) : List (Option Direction) :=
  if labels = ["from", "to"] then ret.set idx (some Direction.entry)
  else if labels = ["to", "from"] then ret.set idx (some Direction.exit)
  else ret

/-- Main loop of `check_tracks` (source lines 61-84), folding over the
checked items `(track_idx, track_id, cross_result)` while threading the
`_prev_cross_edge_label` map and the result list. -/
def checkTracksLoop (prev : ℕ → Option (List (Option String)))
    (ret : List (Option Direction)) :
    List (ℕ × ℕ × CrossResult) →
      List (Option Direction) × (ℕ → Option (List (Option String)))
  | [] => (ret, prev)
  | (idx, tid, cr) :: rest =>
    match cr.kind with
    | IntersectionKind.Inside => checkTracksLoop prev ret rest
    | IntersectionKind.Outside => checkTracksLoop prev ret rest
    | IntersectionKind.Enter =>
      checkTracksLoop
        (fun t => if t = tid then some (cr.edges.map Prod.snd) else prev t)
        ret rest
    | IntersectionKind.Leave =>
      checkTracksLoop prev (leaveWrite ret idx (leaveLabels prev tid cr))
        rest

/-- Checked items of `check_tracks` (source lines 50-59): the positions and
ids of tracks whose window holds exactly 2 points, zipped with the area's
classification of the segment between the window's two points (the batched
`crossed_by_segments` call classifies each segment independently). -/
def checkedItems (st : TwoLinesCrossingTracker) (track_ids : List ℕ) :
    List (ℕ × ℕ × CrossResult) :=
  (track_ids.enum.filter
    (fun p => decide ((st.track_last_points p.2).length = 2))).map
    (fun p => (p.1, p.2,
      st.crossed_by_segment (segOfWindow (st.track_last_points p.2))))

/-- `check_tracks(track_ids)` (source lines 49-86): collect the indices of
tracks whose window holds exactly 2 points, query the area for each such
segment, then classify. Returns the per-position optional directions
together with the updated tracker state. The `defaultdict` read side effect
of line 54 (inserting an empty window) is observably irrelevant and not
modelled. -/
def TwoLinesCrossingTracker.check_tracks (st : TwoLinesCrossingTracker)
    (track_ids : List ℕ) :
    List (Option Direction) × TwoLinesCrossingTracker :=
  let r := checkTracksLoop st.prev_cross_edge_label
    (List.replicate track_ids.length none) (checkedItems st track_ids)
  (r.1, { st with prev_cross_edge_label := r.2 })

/-- Specification-side reading of source lines 78-84: the direction encoded
by a None-free label sequence. -/
def dirOfLabels (labels : List String) : Option Direction :=
  if labels = ["from", "to"] then some Direction.entry
  else if labels = ["to", "from"] then some Direction.exit
  else none

/-- IdleObjectTracker state (samples/traffic_meter/utils.py lines 89-127).
`history` is a plain dict of bounded deques; values are nonempty in every
reachable state. -/
structure IdleObjectTracker where
  idle_tracker_buffer : ℕ
  idle_distance_threshold : ℚ
  history : ℕ → Option (List (ℚ × ℚ))

/-- Source lines 95-98: create the deque on first sight, append with
`maxlen = idle_tracker_buffer` (oldest dropped on overflow). -/
def IdleObjectTracker.update (st : IdleObjectTracker) (track_id : ℕ)
    (c : ℚ × ℚ) : IdleObjectTracker :=
  { st with
    history := fun t =>
      if t = track_id then
        let l := (st.history track_id).getD [] ++ [c]
        some (l.drop (l.length - st.idle_tracker_buffer))
      else st.history t }

/-- Source lines 100-102: delete the track's history if present. -/
def IdleObjectTracker.remove_track (st : IdleObjectTracker) (track_id : ℕ) :
    IdleObjectTracker :=
  { st with
    history := fun t => if t = track_id then none else st.history t }

/-- `check_idle(track_ids)` for a list argument (source lines 104-121; the
scalar overload merely wraps the id in a singleton list). A track with
history is idle iff every sample after the oldest is within
`idle_distance_threshold` of the oldest; a track without history is moving.
The `some []` case raises IndexError in the source and is unreachable via
`update`/`remove_track`; it is mapped to the moving default. -/
def IdleObjectTracker.check_idle (st : IdleObjectTracker)
    (track_ids : List ℕ) : List String :=
  track_ids.map (fun tid =>
    match st.history tid with
    | some (c0 :: rest) =>
      if rest.all (fun c => distance_le c0 c st.idle_distance_threshold) then
        "idle"
      else "moving"
    | some [] => "moving"
    | none => "moving")

/-- `np.array(flat).reshape((-1, 2))`: consecutive coordinate pairing (the
source errors on an odd-length list; the leftover element is dropped here
and the case is unused). -/
def reshape_pairs : List ℚ → List (ℚ × ℚ)
  | x :: y :: rest => (x, y) :: reshape_pairs rest
  | _ => []

/-- CrowdTracker state (samples/traffic_meter/utils.py lines 130-151). -/
structure CrowdTracker where
  crowd_area : List (ℚ × ℚ)
  people_coordinates : List (ℚ × ℚ)

/-- Source lines 131-133: reshape the flat polygon and start with an empty
accumulator. -/
def CrowdTracker.init (crowd_area : List ℚ) : CrowdTracker :=
  { crowd_area := reshape_pairs crowd_area, people_coordinates := [] }

/-- Source lines 135-136: accumulate one point. -/
def CrowdTracker.update (st : CrowdTracker) (point : ℚ × ℚ) : CrowdTracker :=
  { st with people_coordinates := st.people_coordinates ++ [point] }

/-- `check_crowd(threshold)` (source lines 138-151): count accumulated
points inside the crowd polygon (the `size > 0` guard collapses to the same
count for the empty list), compare `count >= threshold`, and always reset
the accumulator. Returns the flag and the updated state. -/
def CrowdTracker.check_crowd (st : CrowdTracker) (threshold : ℤ) :
    Bool × CrowdTracker :=
  let count : ℕ :=
    (st.people_coordinates.filter
      (fun p => is_inside_postgis st.crowd_area p)).length
  (decide (threshold ≤ (count : ℤ)), { st with people_coordinates := [] })

/-- Floor of the square root of a nonnegative rational:
`⌊Real.sqrt x⌋ = Nat.sqrt ⌊x⌋` for `x ≥ 0`, kept executable. -/
def ratSqrtFloor (x : ℚ) : ℕ := Nat.sqrt ⌊x⌋.toNat

/-- Python `int(sqrt dsq / c)` for a nonnegative radicand `dsq`, encoded
over ℚ: for `c > 0` it is the floor of `sqrt (dsq / c^2)`; for `c < 0` the
quotient is nonpositive and truncation toward zero negates that floor. The
source divides by zero when `c = 0`; that case is mapped to `0` and is
outside every claim. -/
def truncSqrtDiv (dsq c : ℚ) : ℤ :=
  if 0 < c then (ratSqrtFloor (dsq / c ^ 2) : ℤ)
  else if c < 0 then -(ratSqrtFloor (dsq / c ^ 2) : ℤ)
  else 0

/-- SpeedEstimator state (samples/traffic_meter/utils.py lines 154-225).
`transform` models the external perspective mapping
`cv2.perspectiveTransform(-, M)` with `M` produced by
`cv2.getPerspectiveTransform` in `__init__`. -/
structure SpeedEstimator where
  speed_area_real_width : ℚ
  speed_area_real_height : ℚ
  dst_w : ℤ
  dst_h : ℤ
  pixels_per_m : ℚ
  transform : ℚ × ℚ → ℚ × ℚ
  history : ℕ → Option (List (ℚ × ℚ × ℚ))

/-- `SpeedEstimator.__init__` (source lines 155-173): fixed destination
width 500, `dst_h = int(h / w * 500)` (Python truncation), and
`pixels_per_m = dst_w / w`. The source quadrilateral feeds only the
external `cv2.getPerspectiveTransform`, represented by the abstract
`transform` parameter. -/
def SpeedEstimator.init (speed_area : List ℚ)
    (speed_area_real_width speed_area_real_height : ℚ)
    (transform : ℚ × ℚ → ℚ × ℚ) : SpeedEstimator :=
  { speed_area_real_width := speed_area_real_width
    speed_area_real_height := speed_area_real_height
    dst_w := 500
    dst_h := pyTrunc (speed_area_real_height / speed_area_real_width * 500)
    pixels_per_m := 500 / speed_area_real_width
    transform := transform
    history := fun _ => none }

/-- Source lines 175-183: append `(x, y, timestamp)` to the track's deque
with `maxlen=1000`. -/
def SpeedEstimator.update (st : SpeedEstimator) (track_id : ℕ)
    (c : ℚ × ℚ) (timestamp : ℚ) : SpeedEstimator :=
  { st with
    history := fun t =>
      if t = track_id then
        let l := (st.history track_id).getD [] ++ [(c.1, c.2, timestamp)]
        some (l.drop (l.length - 1000))
      else st.history t }

/-- Source lines 185-187: delete the track's history if present. -/
def SpeedEstimator.remove_track (st : SpeedEstimator) (track_id : ℕ) :
    SpeedEstimator :=
  { st with
    history := fun t => if t = track_id then none else st.history t }

/-- First and last sample of a history holding at least two samples
(source lines 199-200), `none` otherwise. -/
def firstLast : List (ℚ × ℚ × ℚ) → Option ((ℚ × ℚ × ℚ) × (ℚ × ℚ × ℚ))
  | [] => none
  | [_] => none
  | a :: b :: rest => some (a, (b :: rest).getLast (List.cons_ne_nil b rest))

/-- Per-line speed of source lines 210-217: map both endpoints through the
perspective transform, take their Euclidean distance, divide by
`pixels_per_m` and by the elapsed time, truncate to an integer. In exact
arithmetic `int((sqrt dsq / ppm) / time) = int(sqrt dsq / (ppm * time))`. -/
def speedOfEntry (st : SpeedEstimator)
    (e : (ℚ × ℚ × ℚ) × (ℚ × ℚ × ℚ)) : ℤ :=
  let p0 := st.transform (e.1.1, e.1.2.1)
  let p1 := st.transform (e.2.1, e.2.2.1)
  let time := |e.2.2.2 - e.1.2.2|
  truncSqrtDiv (distance_sq p0 p1) (st.pixels_per_m * time)

/-- Loop `for i in range(len(lines_transformed)): results[i] = speed`
(source lines 209-218): the i-th computed speed is written at position i of
the result list, i being the index in the COMPACTED list of tracks having
at least two samples, not the track's own position in `track_ids`. -/
def writeSpeedsAt (results : List ℤ) : List (ℕ × ℤ) → List ℤ
  | [] => results
  | (i, s) :: rest => writeSpeedsAt (results.set i s) rest

/-- `estimate(track_ids)` for a list argument (source lines 189-219; the
scalar overload wraps the id in a singleton list). Tracks present in the
history with more than one sample contribute a (first, last) pair; the
result list starts as zeros of length `len(track_ids)` and the computed
speeds are written back at compacted indices. -/
def SpeedEstimator.estimate (st : SpeedEstimator) (track_ids : List ℕ) :
    List ℤ :=
  let pairs := track_ids.filterMap (fun tid => (st.history tid).bind firstLast)
  let speeds := pairs.map (fun pr => speedOfEntry st pr)
  writeSpeedsAt (List.replicate track_ids.length (0 : ℤ)) speeds.enum

/-- `convert_color` (savant/utils/artist/artist_gpumat.py lines 10-12):
BGR floats in [0,1] to RGBA ints, each channel via Python `int(c * 255)`
(truncation), alpha passed through with default 255. -/
def convert_color (color : ℚ × ℚ × ℚ) (alpha : ℤ := 255) : ℤ × ℤ × ℤ × ℤ :=
  (pyTrunc (color.2.2 * 255), pyTrunc (color.2.1 * 255),
    pyTrunc (color.1 * 255), alpha)

/-- `build_nvstreammux_config` (savant/deepstream/nvstreammux_config_builder.py
lines 5-49): property lines in dict insertion order, newline-joined after
the `[property]` header, no trailing newline. Fractions are modelled as
(numerator, denominator) pairs. -/
def build_nvstreammux_config (batch_size : ℤ := 1)
    (adaptive_batching : Bool := true) (max_fps_control : Bool := false)
    (max_same_source_frames : ℤ := 1)
    (overall_min_fps : ℤ × ℤ := (5, 1))
    (overall_max_fps : ℤ × ℤ := (120, 1))
    (algorithm_type : ℤ := 1) : String :=
  let properties : List (String × ℤ) :=
    [("batch-size", batch_size),
     ("adaptive-batching", if adaptive_batching then 1 else 0),
     ("max-fps-control", if max_fps_control then 1 else 0),
     ("max-same-source-frames", max_same_source_frames),
     ("overall-max-fps-n", overall_max_fps.1),
     ("overall-max-fps-d", overall_max_fps.2),
     ("overall-min-fps-n", overall_min_fps.1),
     ("overall-min-fps-d", overall_min_fps.2),
     ("algorithm-type", algorithm_type)]
  String.intercalate "\n"
    ("[property]" :: properties.map (fun p => p.1 ++ "=" ++ toString p.2))

/-- Object metadata fields read by the people-counting overlay filter
(samples/people_counting/overlay.py lines 29-50): the primary flag, the
track id, and the `interested_objects / object_idxs` attribute value
carried by the primary object (`none` = attribute absent). -/
structure ObjMeta where
  is_primary : Bool
  track_id : ℕ
  object_idxs_attr : Option (List ℕ)
deriving DecidableEq

/-- Overlay lines 29-40: scan for the first primary object; if found, read
its `interested_objects / object_idxs` attribute, substituting `[]` when
the attribute is absent; if no primary exists the variable stays `None`. -/
def findInterestedObjectIdxs (objects : List ObjMeta) : Option (List ℕ) :=
  match objects.find? (fun o => o.is_primary) with
  | some o => some (o.object_idxs_attr.getD [])
  | none => none

/-- Filter condition of overlay lines 43-45: non-primary, and either the
interested list was never read (`None`) or it is non-empty (truthy) and
contains the object's `track_id`. -/
def passesDrawFilter (interested : Option (List ℕ)) (o : ObjMeta) : Bool :=
  !o.is_primary &&
    (match interested with
     | none => true
     | some l => !l.isEmpty && l.contains o.track_id)

/-- Frame-list indices of the non-primary objects drawn by
`Overlay.draw_on_frame` (overlay lines 42-50): enumerate the frame's
objects and keep those passing the interested-objects filter. -/
def drawnObjectIdxs (objects : List ObjMeta) : List ℕ :=
  let interested := findInterestedObjectIdxs objects
  (objects.enum.filter (fun p => passesDrawFilter interested p.2)).map
    Prod.fst

/-- Concrete SpeedEstimator state: identity calibration (the source quad
equals the destination rectangle, so the perspective transform is the
identity and `pixels_per_m = 1`), track 1 holding one sample and track 2
holding two samples 5 rectified pixels apart, 1 second apart. -/
def stEstimator : SpeedEstimator :=
  { SpeedEstimator.init [0, 0, 500, 0, 500, 500, 0, 500] 500 500
      (fun p => p) with
    history := fun t =>
      if t = 1 then some [(0, 0, 0)]
      else if t = 2 then some [(0, 0, 0), (3, 4, 1)]
      else none }

/-- Concrete crossing tracker holding a pending entry-crossing for track 7
together with a two-point window for it. -/
def stCrossingPending : TwoLinesCrossingTracker :=
  { crossed_by_segment := fun _ =>
      { kind := IntersectionKind.Inside, edges := [] }
    prev_cross_edge_label := fun t =>
      if t = 7 then some [some "from"] else none
    track_last_points := fun t => if t = 7 then [(0, 0), (5, 5)] else [] }

/-- Concrete crossing tracker in which track 3 has a two-point window whose
segment the area classifies as leaving across the edge labelled "to", and a
pending entry across the edge labelled "from". -/
def stCrossingLeave : TwoLinesCrossingTracker :=
  { crossed_by_segment := fun _ =>
      { kind := IntersectionKind.Leave, edges := [(2, some "to"), (1, none)] }
    prev_cross_edge_label := fun t =>
      if t = 3 then some [some "from"] else none
    track_last_points := fun t => if t = 3 then [(5, -5), (5, 15)] else [] }

/-- Concrete idle tracker with a single recorded position for track 4 and
no history for any other track. -/
def stIdleOne : IdleObjectTracker :=
  { idle_tracker_buffer := 900
    idle_distance_threshold := 20
    history := fun t => if t = 4 then some [(100, 200)] else none }

/-- Concrete frame: one primary object carrying the interested list `[2]`,
plus non-primary objects at frame indices 1 and 2 with track ids 7 and 9. -/
def frameInterested : List ObjMeta :=
  [{ is_primary := true, track_id := 0, object_idxs_attr := some [2] },
   { is_primary := false, track_id := 7, object_idxs_attr := none },
   { is_primary := false, track_id := 9, object_idxs_attr := none }]

/-- Concrete frame: a primary object carrying an empty interested list plus
one non-primary object. -/
def frameEmptyInterested : List ObjMeta :=
  [{ is_primary := true, track_id := 0, object_idxs_attr := some [] },
   { is_primary := false, track_id := 7, object_idxs_attr := none }]

/-! Helper lemmas. -/

/-- Python truncation agrees with the floor on nonnegative arguments. -/
theorem pyTrunc_eq_floor {x : ℚ} (h : 0 ≤ x) : pyTrunc x = ⌊x⌋ := if_pos h

/-- Characterization of `truncSqrtDiv` as the integer truncation of
`sqrt dsq / c` for a positive divisor: it is the greatest integer `n` with
`(n * c) ^ 2 ≤ dsq`. -/
theorem truncSqrtDiv_spec (dsq c : ℚ) (hd : 0 ≤ dsq) (hc : 0 < c) :
    ((truncSqrtDiv dsq c : ℚ) * c) ^ 2 ≤ dsq ∧
      dsq < (((truncSqrtDiv dsq c : ℚ) + 1) * c) ^ 2 := by
  have hc2 : (0 : ℚ) < c ^ 2 := by positivity
  have hq0 : (0 : ℚ) ≤ dsq / c ^ 2 := by positivity
  set q : ℚ := dsq / c ^ 2 with hq
  have hfl : (0 : ℤ) ≤ ⌊q⌋ := Int.floor_nonneg.mpr hq0
  set m : ℕ := ⌊q⌋.toNat with hm
  have hmq : (m : ℚ) ≤ q := by
    have h1 : ((m : ℤ) : ℚ) ≤ q := by
      rw [hm, Int.toNat_of_nonneg hfl]; exact Int.floor_le q
    exact_mod_cast h1
  have hqm : q < (m : ℚ) + 1 := by
    have h1 : q < ((m : ℤ) : ℚ) + 1 := by
      rw [hm, Int.toNat_of_nonneg hfl]; exact Int.lt_floor_add_one q
    exact_mod_cast h1
  set n : ℕ := Nat.sqrt m with hn
  have htd : truncSqrtDiv dsq c = (n : ℤ) := by
    simp only [truncSqrtDiv, if_pos hc, ratSqrtFloor, ← hq, ← hm, ← hn]
  have h1 : ((n : ℚ)) ^ 2 ≤ q := by
    have hs := Nat.sqrt_le' m
    calc ((n : ℚ)) ^ 2 = ((n ^ 2 : ℕ) : ℚ) := by push_cast; ring
      _ ≤ (m : ℚ) := by exact_mod_cast hs
      _ ≤ q := hmq
  have h2 : q < ((n : ℚ) + 1) ^ 2 := by
    have hs := Nat.lt_succ_sqrt' m
    have hs' : m + 1 ≤ (n + 1) ^ 2 := by
      simpa [Nat.succ_eq_add_one, ← hn] using Nat.succ_le_of_lt hs
    calc q < (m : ℚ) + 1 := hqm
      _ ≤ ((n : ℚ) + 1) ^ 2 := by exact_mod_cast hs'
  have hdq : q * c ^ 2 = dsq := div_mul_cancel₀ dsq (ne_of_gt hc2)
  constructor
  · rw [htd]
    push_cast
    calc ((n : ℚ) * c) ^ 2 = (n : ℚ) ^ 2 * c ^ 2 := by ring
      _ ≤ q * c ^ 2 := mul_le_mul_of_nonneg_right h1 (le_of_lt hc2)
      _ = dsq := hdq
  · rw [htd]
    push_cast
    calc dsq = q * c ^ 2 := hdq.symm
      _ < ((n : ℚ) + 1) ^ 2 * c ^ 2 := mul_lt_mul_of_pos_right h2 hc2
      _ = (((n : ℚ) + 1) * c) ^ 2 := by ring

/-! Claim theorems. -/

/-- Claim C1 (code_bug evaluation): with track 1 holding one sample and
track 2 holding two samples 5 rectified meters apart 1 second apart under
the identity calibration, `estimate([1, 2])` returns `[5, 0]` — the speed
of track 2 is written at the compacted index 0 instead of at track 2's own
position, contradicting the claimed per-track alignment `[0, 5]`. -/
theorem estimate_misaligned :
    stEstimator.estimate [1, 2] = [5, 0] ∧
    stEstimator.estimate [1, 2] ≠ [0, 5] := by
  have hsq : Nat.sqrt 25 = 5 := by
    have h1 : 5 ≤ Nat.sqrt 25 := Nat.le_sqrt.mpr (by norm_num)
    have h2 : Nat.sqrt 25 < 6 := Nat.sqrt_lt.mpr (by norm_num)
    omega
  have h25 : Int.toNat 25 = 25 := rfl
  have hmain : stEstimator.estimate [1, 2] = [5, 0] := by
    norm_num [stEstimator, SpeedEstimator.init, SpeedEstimator.estimate,
      firstLast, speedOfEntry, distance_sq, truncSqrtDiv, ratSqrtFloor,
      writeSpeedsAt, List.filterMap_cons, hsq, h25, abs_of_nonneg,
      List.replicate, List.enum, List.enumFrom]
  exact ⟨hmain, by rw [hmain]; simp⟩

/-- Claim C3 (counterexample): removing track 7 from a tracker whose
pending map remembers an entry-crossing for track 7 does not discard that
pending state, contradicting the claim that remove_track discards both the
window and the pending entry. -/
theorem remove_track_pending_retained :
    (stCrossingPending.remove_track 7).prev_cross_edge_label 7 ≠ none := by
  decide

/-- Claim C3 (amended): `remove_track(t)` discards t's two-point sliding
window, but leaves the pending entry-crossing map untouched. -/
theorem remove_track_discards_window_only (st : TwoLinesCrossingTracker)
    (track_id : ℕ) :
    (st.remove_track track_id).track_last_points track_id = [] ∧
    (st.remove_track track_id).prev_cross_edge_label =
      st.prev_cross_edge_label := by
  constructor
  · simp [TwoLinesCrossingTracker.remove_track]
  · rfl

/-- Claim C5 (counterexample): with threshold 0 and zero accumulated
points, `check_crowd` reports crowded (`0 >= 0`), contradicting the claim
that zero accumulated points report not crowded for every threshold. -/
theorem check_crowd_empty_zero_threshold :
    ((CrowdTracker.init [0, 0, 10, 0, 10, 10, 0, 10]).check_crowd 0).1 =
      true := by
  decide

/-- Claim C5 (amended): `check_crowd(threshold)` returns true exactly when
the number of accumulated points inside the crowd polygon is at least the
threshold, always resets the accumulator, and reports not crowded on zero
accumulated points for every positive threshold. -/
theorem check_crowd_spec (st : CrowdTracker) (threshold : ℤ) :
    ((st.check_crowd threshold).1 = true ↔
      threshold ≤ ((st.people_coordinates.filter
        (fun p => is_inside_postgis st.crowd_area p)).length : ℤ)) ∧
    (st.check_crowd threshold).2.people_coordinates = [] ∧
    (1 ≤ threshold → st.people_coordinates = [] →
      (st.check_crowd threshold).1 = false) := by
  refine ⟨?_, rfl, ?_⟩
  · simp [CrowdTracker.check_crowd]
  · intro h1 h2
    simp only [CrowdTracker.check_crowd, h2, List.filter_nil,
      List.length_nil, Nat.cast_zero, decide_eq_false_iff_not, not_le]
    omega

/-- Claim C5 (witness): a crowd tracker with zero accumulated points and
threshold 3 reports not crowded. -/
theorem check_crowd_spec_witness :
    ((CrowdTracker.init [0, 0, 10, 0, 10, 10, 0, 10]).check_crowd 3).1 =
      false := by
  exact (check_crowd_spec (CrowdTracker.init [0, 0, 10, 0, 10, 10, 0, 10])
    3).2.2 (by decide) rfl

/-- Claim C6 (counterexample): for the BGR color (0.5, 0, 0) the blue
output channel is `int(0.5 * 255) = 127`, not `round(0.5 * 255) = 128`:
the conversion truncates rather than rounding to nearest. -/
theorem convert_color_not_round :
    (convert_color ((1 : ℚ)/2, 0, 0)).2.2.1 ≠ round (((1 : ℚ)/2) * 255) := by
  norm_num [convert_color, pyTrunc, round_eq]

/-- Claim C6 (amended): for BGR float channels in [0,1] and any alpha,
`convert_color` produces the integer channels via truncation
`int(channel * 255)` (equal to the floor on this range), in RGBA order with
the alpha passed through, each color channel landing in [0, 255]. -/
theorem convert_color_trunc (b g r : ℚ) (a : ℤ) (hb0 : 0 ≤ b) (hb1 : b ≤ 1)
    (hg0 : 0 ≤ g) (hg1 : g ≤ 1) (hr0 : 0 ≤ r) (hr1 : r ≤ 1) :
    convert_color (b, g, r) a = (⌊r * 255⌋, ⌊g * 255⌋, ⌊b * 255⌋, a) ∧
    0 ≤ ⌊b * 255⌋ ∧ ⌊b * 255⌋ ≤ 255 ∧ 0 ≤ ⌊g * 255⌋ ∧ ⌊g * 255⌋ ≤ 255 ∧
    0 ≤ ⌊r * 255⌋ ∧ ⌊r * 255⌋ ≤ 255 := by
  have hb : (0 : ℚ) ≤ b * 255 := mul_nonneg hb0 (by norm_num)
  have hg : (0 : ℚ) ≤ g * 255 := mul_nonneg hg0 (by norm_num)
  have hr : (0 : ℚ) ≤ r * 255 := mul_nonneg hr0 (by norm_num)
  have hub : ∀ x : ℚ, x ≤ 1 → ⌊x * 255⌋ ≤ 255 := by
    intro x hx
    have h1 : ⌊x * 255⌋ ≤ ⌊(255 : ℚ)⌋ := Int.floor_le_floor (by nlinarith)
    simpa using h1
  refine ⟨?_, Int.floor_nonneg.mpr hb, hub b hb1, Int.floor_nonneg.mpr hg,
    hub g hg1, Int.floor_nonneg.mpr hr, hub r hr1⟩
  simp [convert_color, pyTrunc_eq_floor hb, pyTrunc_eq_floor hg,
    pyTrunc_eq_floor hr]

/-- Claim C6 (witness): the amended conversion evaluated at the concrete
BGR color (0.5, 0, 1) with alpha 255. -/
theorem convert_color_trunc_witness :
    convert_color ((1 : ℚ)/2, 0, 1) 255 =
      (⌊(1 : ℚ) * 255⌋, ⌊(0 : ℚ) * 255⌋, ⌊((1 : ℚ)/2) * 255⌋, 255) := by
  exact (convert_color_trunc ((1 : ℚ)/2) 0 1 255 (by norm_num) (by norm_num)
    (by norm_num) (by norm_num) (by norm_num) (by norm_num)).1

/-- Claim C7 (counterexample): for real width 3 and height 1 the
destination height is `int(1 / 3 * 500) = 166`, not
`round(1 / 3 * 500) = 167`: the height is truncated, not rounded to
nearest. -/
theorem speed_estimator_dst_h_not_round :
    (SpeedEstimator.init [] 3 1 (fun p => p)).dst_h ≠
      round ((1 : ℚ) / 3 * 500) := by
  norm_num [SpeedEstimator.init, pyTrunc, round_eq]

/-- Claim C7 (amended): for positive real width and nonnegative real
height, the destination rectangle has fixed width 500, its height is the
integer truncation (floor) of `h / w * 500`, and `pixels_per_meter * w`
equals 500 (i.e. `pixels_per_meter = 500 / w`). -/
theorem speed_estimator_init_spec (speed_area : List ℚ) (w h : ℚ)
    (tf : ℚ × ℚ → ℚ × ℚ) (hw : 0 < w) (hh : 0 ≤ h) :
    (SpeedEstimator.init speed_area w h tf).dst_w = 500 ∧
    ((SpeedEstimator.init speed_area w h tf).dst_h : ℚ) ≤ h / w * 500 ∧
    h / w * 500 < ((SpeedEstimator.init speed_area w h tf).dst_h : ℚ) + 1 ∧
    (SpeedEstimator.init speed_area w h tf).pixels_per_m * w = 500 := by
  have hx : (0 : ℚ) ≤ h / w * 500 := by positivity
  have hdh : (SpeedEstimator.init speed_area w h tf).dst_h =
      ⌊h / w * 500⌋ := pyTrunc_eq_floor hx
  refine ⟨rfl, ?_, ?_, ?_⟩
  · rw [hdh]; exact Int.floor_le _
  · rw [hdh]; exact Int.lt_floor_add_one _
  · show 500 / w * w = 500
    exact div_mul_cancel₀ 500 (ne_of_gt hw)

/-- Claim C7 (witness): the amended statement evaluated at real width 3,
height 1 (destination height 166). -/
theorem speed_estimator_init_spec_witness :
    (SpeedEstimator.init [] 3 1 (fun p => p)).dst_w = 500 ∧
    ((SpeedEstimator.init [] 3 1 (fun p => p)).dst_h : ℚ) ≤
      (1 : ℚ) / 3 * 500 ∧
    (1 : ℚ) / 3 * 500 <
      ((SpeedEstimator.init [] 3 1 (fun p => p)).dst_h : ℚ) + 1 ∧
    (SpeedEstimator.init [] 3 1 (fun p => p)).pixels_per_m * 3 = 500 := by
  exact speed_estimator_init_spec [] 3 1 (fun p => p) (by norm_num)
    (by norm_num)

/-- Claim C8: with all default arguments the nvstreammux config builder
produces exactly the [property] header followed by the nine key=value
lines in the fixed order, newline-joined with no trailing newline. -/
theorem build_nvstreammux_config_default :
    build_nvstreammux_config =
      "[property]\nbatch-size=1\nadaptive-batching=1\nmax-fps-control=0\nmax-same-source-frames=1\noverall-max-fps-n=120\noverall-max-fps-d=1\noverall-min-fps-n=5\noverall-min-fps-d=1\nalgorithm-type=1" := by
  rfl

/-- Claim C9: the ray-casting point-in-polygon test on the square
[(0,0),(10,0),(10,10),(0,10)] classifies (5,5) inside, (15,15) outside,
and the boundary point (0,5) inside. -/
theorem is_inside_postgis_square :
    is_inside_postgis [(0, 0), (10, 0), (10, 10), (0, 10)] (5, 5) = true ∧
    is_inside_postgis [(0, 0), (10, 0), (10, 10), (0, 10)] (15, 15) =
      false ∧
    is_inside_postgis [(0, 0), (10, 0), (10, 10), (0, 10)] (0, 5) = true := by
  refine ⟨?_, ?_, ?_⟩ <;>
    norm_num [is_inside_postgis, isInsidePostgisAux]

/-- Claim C2 (counterexample): a frame whose primary object carries the
interested list [2] and whose non-primary objects sit at frame indices 1
and 2 with track ids 7 and 9: the claim predicts that exactly the object at
frame index 2 is drawn, but the code tests membership against track ids and
draws nothing. -/
theorem drawn_idxs_track_id_not_index :
    drawnObjectIdxs frameInterested = [] ∧
    drawnObjectIdxs frameInterested ≠ [2] := by
  decide

/-- Claim C2 (amended): when no primary object exists (so the attribute is
never read), every non-primary object is drawn; when a primary object
exists, an absent attribute is read as the empty list, and an empty
interested list draws zero non-primary objects; a non-empty interested
list draws exactly the non-primary objects whose track id (not frame
index) is a member of the list. -/
theorem draw_on_frame_filter_spec (objects : List ObjMeta) :
    (findInterestedObjectIdxs objects = none →
      drawnObjectIdxs objects =
        (objects.enum.filter (fun p => !p.2.is_primary)).map Prod.fst) ∧
    (∀ l, findInterestedObjectIdxs objects = some l → l = [] →
      drawnObjectIdxs objects = []) ∧
    (∀ l, findInterestedObjectIdxs objects = some l → l ≠ [] →
      drawnObjectIdxs objects =
        (objects.enum.filter
          (fun p => !p.2.is_primary && l.contains p.2.track_id)).map
          Prod.fst) := by
  refine ⟨?_, ?_, ?_⟩
  · intro h
    simp [drawnObjectIdxs, h, passesDrawFilter]
  · intro l h hl
    subst hl
    simp [drawnObjectIdxs, h, passesDrawFilter]
  · intro l h hl
    have hne : l.isEmpty = false := by
      cases l with
      | nil => exact absurd rfl hl
      | cons a as => rfl
    simp [drawnObjectIdxs, h, passesDrawFilter, hne]

/-- Claim C2 (witness): a frame whose primary object carries an empty
interested list draws zero non-primary objects. -/
theorem draw_on_frame_filter_spec_witness :
    drawnObjectIdxs frameEmptyInterested = [] := by
  exact (draw_on_frame_filter_spec frameEmptyInterested).2.1 [] rfl rfl

/-- Claim C10: a track with exactly one recorded position in its history is
classified idle (the distance comparisons are vacuous), while a track with
no history at all is classified moving. -/
theorem check_idle_one_point (st : IdleObjectTracker) (t u : ℕ) (c : ℚ × ℚ)
    (h1 : st.history t = some [c]) (h2 : st.history u = none) :
    st.check_idle [t] = ["idle"] ∧ st.check_idle [u] = ["moving"] := by
  constructor
  · simp [IdleObjectTracker.check_idle, h1]
  · simp [IdleObjectTracker.check_idle, h2]

/-- Claim C10 (witness): the concrete idle tracker with one sample for
track 4 and nothing for track 9. -/
theorem check_idle_one_point_witness :
    stIdleOne.check_idle [4] = ["idle"] ∧
    stIdleOne.check_idle [9] = ["moving"] := by
  exact check_idle_one_point stIdleOne 4 9 (100, 200) rfl rfl

/-- The leave-case write does not disturb other result positions. -/
theorem leaveWrite_getElem_ne {ret : List (Option Direction)} {i0 idx : ℕ}
    (hne : i0 ≠ idx) (ls : List String) :
    (leaveWrite ret i0 ls)[idx]? = ret[idx]? := by
  unfold leaveWrite
  split_ifs with h1 h2
  · exact List.getElem?_set_ne hne
  · exact List.getElem?_set_ne hne
  · rfl

/-- The leave-case write at a position currently holding `none` produces
exactly the direction decoded from the label sequence. -/
theorem leaveWrite_getElem_self {ret : List (Option Direction)} {idx : ℕ}
    (ls : List String) (hcur : ret[idx]? = some none) :
    (leaveWrite ret idx ls)[idx]? = some (dirOfLabels ls) := by
  unfold leaveWrite dirOfLabels
  split_ifs with h1 h2
  · rw [List.getElem?_set_self', hcur]; rfl
  · rw [List.getElem?_set_self', hcur]; rfl
  · exact hcur

/-- The leave-case label sequence, written with `Option.getD`. -/
theorem leaveLabels_eq (prev : ℕ → Option (List (Option String))) (tid : ℕ)
    (cr : CrossResult) :
    leaveLabels prev tid cr =
      (((prev tid).getD []) ++ cr.edges.map Prod.snd).filterMap id := by
  unfold leaveLabels
  cases prev tid <;> simp

/-- A result position is untouched by the check-tracks loop when no item
with kind Leave writes at it. -/
theorem checkTracksLoop_fst_stable (items : List (ℕ × ℕ × CrossResult))
    (prev : ℕ → Option (List (Option String)))
    (ret : List (Option Direction)) (idx : ℕ)
    (h : ∀ it ∈ items, it.1 = idx →
      it.2.2.kind ≠ IntersectionKind.Leave) :
    ((checkTracksLoop prev ret items).1)[idx]? = ret[idx]? := by
  induction items generalizing prev ret with
  | nil => rfl
  | cons it rest ih =>
    obtain ⟨i0, t0, k0, e0⟩ := it
    have hrest : ∀ it ∈ rest, it.1 = idx →
        it.2.2.kind ≠ IntersectionKind.Leave :=
      fun it hm => h it (List.mem_cons_of_mem _ hm)
    cases k0 with
    | Inside => simp only [checkTracksLoop]; exact ih _ _ hrest
    | Outside => simp only [checkTracksLoop]; exact ih _ _ hrest
    | Enter => simp only [checkTracksLoop]; exact ih _ _ hrest
    | Leave =>
      have hne : i0 ≠ idx := by
        intro he
        exact h (i0, t0, ⟨IntersectionKind.Leave, e0⟩)
          (List.mem_cons_self _ _) he rfl
      simp only [checkTracksLoop]
      rw [ih _ _ hrest]
      exact leaveWrite_getElem_ne hne _

/-- Main invariant of the check-tracks loop: the j-th item, holding a
Leave-classified cross result for a track whose id never occurs on an
Enter-classified item, ends up at its own result position with the
direction decoded from the pending labels prepended to its exit labels. -/
theorem checkTracksLoop_leave (items : List (ℕ × ℕ × CrossResult))
    (prev : ℕ → Option (List (Option String)))
    (ret : List (Option Direction)) (j idx tid : ℕ) (cr : CrossResult)
    (hj : items[j]? = some (idx, tid, cr))
    (hL : cr.kind = IntersectionKind.Leave)
    (hnd : (items.map (fun it => it.1)).Nodup)
    (hent : ∀ it ∈ items, it.2.1 = tid →
      it.2.2.kind ≠ IntersectionKind.Enter)
    (hcur : ret[idx]? = some none) :
    ((checkTracksLoop prev ret items).1)[idx]? =
      some (dirOfLabels ((((prev tid).getD []) ++
        cr.edges.map Prod.snd).filterMap id)) := by
  induction items generalizing prev ret j with
  | nil => simp at hj
  | cons it rest ih =>
    rw [List.map_cons] at hnd
    have hnd1 : it.1 ∉ rest.map (fun it => it.1) := (List.nodup_cons.mp hnd).1
    have hnd2 : (rest.map (fun it => it.1)).Nodup := (List.nodup_cons.mp hnd).2
    have hment : ∀ x ∈ rest, x.2.1 = tid →
        x.2.2.kind ≠ IntersectionKind.Enter :=
      fun x hm => hent x (List.mem_cons_of_mem _ hm)
    cases j with
    | zero =>
      rw [List.getElem?_cons_zero] at hj
      have hit : it = (idx, tid, cr) := Option.some.inj hj
      subst hit
      have hnot : idx ∉ rest.map (fun it => it.1) := hnd1
      have hstable : ∀ x ∈ rest, x.1 = idx →
          x.2.2.kind ≠ IntersectionKind.Leave := by
        intro x hm he
        exact absurd (he ▸ List.mem_map_of_mem (fun it => it.1) hm) hnot
      obtain ⟨k, e⟩ := cr
      have hk : k = IntersectionKind.Leave := hL
      subst hk
      simp only [checkTracksLoop]
      rw [checkTracksLoop_fst_stable rest _ _ idx hstable]
      rw [leaveWrite_getElem_self _ hcur, leaveLabels_eq]
    | succ k =>
      rw [List.getElem?_cons_succ] at hj
      obtain ⟨i0, t0, k0, e0⟩ := it
      cases k0 with
      | Inside =>
        simp only [checkTracksLoop]
        exact ih _ _ k hj hnd2 hment hcur
      | Outside =>
        simp only [checkTracksLoop]
        exact ih _ _ k hj hnd2 hment hcur
      | Enter =>
        have ht0 : t0 ≠ tid := by
          intro he
          exact hent (i0, t0, ⟨IntersectionKind.Enter, e0⟩)
            (List.mem_cons_self _ _) he rfl
        simp only [checkTracksLoop]
        rw [ih _ _ k hj hnd2 hment hcur]
        have hif : (if tid = t0 then some (e0.map Prod.snd)
            else prev tid) = prev tid := if_neg (fun he => ht0 he.symm)
        rw [hif]
      | Leave =>
        have hidx : idx ∈ rest.map (fun it => it.1) := by
          have hm : (idx, tid, cr) ∈ rest := List.mem_iff_getElem?.mpr ⟨k, hj⟩
          simpa using List.mem_map_of_mem (fun it => it.1) hm
        have hnot : i0 ∉ rest.map (fun it => it.1) := hnd1
        have hne : i0 ≠ idx := by
          intro he
          exact hnot (he ▸ hidx)
        simp only [checkTracksLoop]
        have hcur2 : (leaveWrite ret i0
            (leaveLabels prev t0 ⟨IntersectionKind.Leave, e0⟩))[idx]? =
            some none := by
          rw [leaveWrite_getElem_ne hne]; exact hcur
        exact ih _ _ k hj hnd2 hment hcur2

/-- The first components of the checked items are pairwise distinct (they
are positions in the enumerated id list). -/
theorem checkedItems_fst_nodup (st : TwoLinesCrossingTracker)
    (track_ids : List ℕ) :
    ((checkedItems st track_ids).map (fun it => it.1)).Nodup := by
  have h1 : (checkedItems st track_ids).map (fun it => it.1) =
      (track_ids.enum.filter
        (fun p => decide ((st.track_last_points p.2).length = 2))).map
        Prod.fst := by
    unfold checkedItems
    rw [List.map_map]
    rfl
  rw [h1]
  have hsub : List.Sublist
      ((track_ids.enum.filter
        (fun p => decide ((st.track_last_points p.2).length = 2))).map
        Prod.fst)
      (track_ids.enum.map Prod.fst) :=
    List.Sublist.map _ (List.filter_sublist _)
  rw [List.enum_map_fst] at hsub
  exact List.Nodup.sublist hsub (List.nodup_range _)

/-- A track at position i with a two-point window contributes its own
checked item. -/
theorem checkedItems_mem (st : TwoLinesCrossingTracker)
    (track_ids : List ℕ) {i tid : ℕ}
    (hget : track_ids[i]? = some tid)
    (hwin : (st.track_last_points tid).length = 2) :
    (i, tid, st.crossed_by_segment
        (segOfWindow (st.track_last_points tid))) ∈
      checkedItems st track_ids := by
  unfold checkedItems
  refine List.mem_map.mpr ⟨(i, tid), ?_, rfl⟩
  refine List.mem_filter.mpr ⟨List.mk_mem_enum_iff_getElem?.mpr hget, ?_⟩
  simpa using hwin

/-- Every checked item records its track id at its own position, and its
cross result is the area's classification of that track's window. -/
theorem checkedItems_mem_inv (st : TwoLinesCrossingTracker)
    (track_ids : List ℕ) :
    ∀ it ∈ checkedItems st track_ids,
      track_ids[it.1]? = some it.2.1 ∧
      it.2.2 = st.crossed_by_segment
        (segOfWindow (st.track_last_points it.2.1)) := by
  intro it hit
  unfold checkedItems at hit
  obtain ⟨⟨pi, pt⟩, hp, rfl⟩ := List.mem_map.mp hit
  exact ⟨List.mk_mem_enum_iff_getElem?.mp (List.mem_filter.mp hp).1, rfl⟩

/-- Claim C4: for every check_tracks call and every checked track (window
of exactly 2 points) at position i of the input: when the segment is
classified Leave, the reported value at position i is the direction decoded
from the remembered entry labels (if any) prepended to the exit labels with
None labels dropped — entry exactly on [from, to], exit exactly on
[to, from], nothing otherwise; when it is classified Inside, Outside or
Enter, no direction is reported at position i. -/
theorem check_tracks_direction (st : TwoLinesCrossingTracker)
    (track_ids : List ℕ) (i tid : ℕ)
    (hget : track_ids[i]? = some tid)
    (hwin : (st.track_last_points tid).length = 2) :
    ((st.check_tracks track_ids).1)[i]? =
      some (match (st.crossed_by_segment
          (segOfWindow (st.track_last_points tid))).kind with
        | IntersectionKind.Leave =>
          dirOfLabels ((((st.prev_cross_edge_label tid).getD []) ++
            (st.crossed_by_segment
              (segOfWindow (st.track_last_points tid))).edges.map
              Prod.snd).filterMap id)
        | IntersectionKind.Inside => none
        | IntersectionKind.Outside => none
        | IntersectionKind.Enter => none) := by
  have hmem := checkedItems_mem st track_ids hget hwin
  obtain ⟨j, hj⟩ := List.mem_iff_getElem?.mp hmem
  have hnd := checkedItems_fst_nodup st track_ids
  have hinv := checkedItems_mem_inv st track_ids
  have hilt : i < track_ids.length := (List.getElem?_eq_some.mp hget).1
  have hcur : (List.replicate track_ids.length
      (none : Option Direction))[i]? = some none := by
    simp [List.getElem?_replicate, hilt]
  have hstable : (st.crossed_by_segment
        (segOfWindow (st.track_last_points tid))).kind ≠
        IntersectionKind.Leave →
      ∀ it ∈ checkedItems st track_ids, it.1 = i →
        it.2.2.kind ≠ IntersectionKind.Leave := by
    intro hkne it hit h1
    have h2 := (hinv it hit).1
    rw [h1, hget] at h2
    have h3 : it.2.1 = tid := (Option.some.inj h2).symm
    rw [(hinv it hit).2, h3]
    exact hkne
  have hfst : (st.check_tracks track_ids).1 =
      (checkTracksLoop st.prev_cross_edge_label
        (List.replicate track_ids.length none)
        (checkedItems st track_ids)).1 := rfl
  rw [hfst]
  cases hk : (st.crossed_by_segment
      (segOfWindow (st.track_last_points tid))).kind with
  | Leave =>
    refine checkTracksLoop_leave _ _ _ j i tid _ hj hk hnd ?_ hcur
    intro it hit h2
    rw [(hinv it hit).2, h2, hk]
    intro hc
    exact IntersectionKind.noConfusion hc
  | Inside =>
    rw [checkTracksLoop_fst_stable _ _ _ i
      (hstable (by rw [hk]; intro hc; exact IntersectionKind.noConfusion hc))]
    exact hcur
  | Outside =>
    rw [checkTracksLoop_fst_stable _ _ _ i
      (hstable (by rw [hk]; intro hc; exact IntersectionKind.noConfusion hc))]
    exact hcur
  | Enter =>
    rw [checkTracksLoop_fst_stable _ _ _ i
      (hstable (by rw [hk]; intro hc; exact IntersectionKind.noConfusion hc))]
    exact hcur

/-- Claim C4 (witness): in the concrete tracker, track 3 leaves across the
edge labelled "to" with a pending entry across "from"; the combined
None-free label sequence is [from, to], so position 0 reports entry. -/
theorem check_tracks_direction_witness :
    ((stCrossingLeave.check_tracks [3]).1)[0]? =
      some (some Direction.entry) := by
  have h := check_tracks_direction stCrossingLeave [3] 0 3 rfl rfl
  simpa [stCrossingLeave, dirOfLabels] using h
